import Mathlib

/-!
Verification development for the PhiFlow backend-abstraction math layer
(src/phi/math/backend/_backend.py): the DType promotion rules
(combine_types), the scoped backend stack, the default elementwise
operators built on auto_cast, unimplemented-operation errors, and the
conjugate-gradient solve contract.
-/

/-- Modelled from the spec: the DType kind (src/phi/math/backend/_dtype.py is
not under src/). The spec data model lists bool, int, float and complex;
rule 5 of the promotion contract mentions further, custom kinds, so the
model keeps an escape constructor for those. -/
inductive Kind where
  | bool
  | int
  | float
  | complex
  | custom (tag : String)
deriving DecidableEq, Repr

/-- Modelled from the spec: DType is a kind together with an integer bit
width; kind and bits together determine the type (structural equality). -/
structure DType where
  kind : Kind
  bits : Nat
deriving DecidableEq, Repr

/-- Python test dt.kind == bool used by the first branch of combine_types. -/
def kindIsBool (dt : DType) : Bool :=
  dt.kind == Kind.bool

/-- Python test dt.kind in (bool, int) used by the second branch. -/
def kindIsBoolInt (dt : DType) : Bool :=
  dt.kind == Kind.bool || dt.kind == Kind.int

/-- Python test dt.kind in (float, int, bool) used by the third branch. -/
def kindIsReal (dt : DType) : Bool :=
  dt.kind == Kind.bool || dt.kind == Kind.int || dt.kind == Kind.float

/-- Python test dt.kind in (complex, float, int, bool) used by the fourth
branch. -/
def kindIsNumeric (dt : DType) : Bool :=
  dt.kind == Kind.bool || dt.kind == Kind.int || dt.kind == Kind.float ||
    dt.kind == Kind.complex

/-- Backend.float_type: DType(float, self.precision). The process-wide
precision setting (get_precision, default 32) lives in a module not under
src/, so the embedding passes the current precision as a parameter. -/
def float_type (precision : Nat) : DType :=
  DType.mk Kind.float precision

/-- Backend.complex_type: DType(complex, max(64, self.precision)). -/
def complex_type (precision : Nat) : DType :=
  DType.mk Kind.complex (max 64 precision)

/-- Errors combine_types can raise: ValueError(dtypes) — the TypeMismatch
of the spec — and the IndexError from dtypes[0] on an empty argument
list. -/
inductive CombineError where
  | typeMismatch (dtypes : List DType)
  | indexError
deriving DecidableEq, Repr

/-- Python max(dtypes, key=lambda dt: dt.bits): scans left to right and
keeps the current best unless a strictly larger key appears, so it returns
the first element of maximal bit width. -/
def maxByBits (head : DType) (rest : List DType) : DType :=
  rest.foldl (fun best dt => if best.bits < dt.bits then dt else best) head

/-- Backend.combine_types(*dtypes) from src/phi/math/backend/_backend.py:
four membership-guarded branches (all bool; all bool/int; all
bool/int/float; all bool/int/float/complex) and a final ValueError.
On an empty argument list the first branch is vacuously taken and
dtypes[0] raises IndexError. -/
def combine_types (precision : Nat) (dtypes : List DType) :
    Except CombineError DType :=
  if dtypes.all kindIsBool then
    match dtypes with
    | [] => Except.error CombineError.indexError
    | d :: _ => Except.ok d
  else if dtypes.all kindIsBoolInt then
    match dtypes with
    | [] => Except.error CombineError.indexError
    | d :: rest => Except.ok (maxByBits d rest)
  else if dtypes.all kindIsReal then
    Except.ok (float_type precision)
  else if dtypes.all kindIsNumeric then
    Except.ok (complex_type precision)
  else
    Except.error (CombineError.typeMismatch dtypes)

/-- Maximal bit width over a dtype list (0 for the empty list). -/
def maxBits (dtypes : List DType) : Nat :=
  dtypes.foldl (fun m dt => max m dt.bits) 0

deriving instance DecidableEq for Except

theorem maxByBits_mem (rest : List DType) (head : DType) :
    maxByBits head rest = head ∨ maxByBits head rest ∈ rest := by
  induction rest generalizing head with
  | nil => exact Or.inl rfl
  | cons r t ih =>
    have step : maxByBits head (r :: t) =
        maxByBits (if head.bits < r.bits then r else head) t := rfl
    rcases ih (if head.bits < r.bits then r else head) with h | h
    · rw [step, h]
      by_cases hb : head.bits < r.bits
      · simp [hb]
      · simp [hb]
    · right
      rw [step]
      exact List.mem_cons_of_mem r h

theorem maxByBits_bits (rest : List DType) (head : DType) :
    (maxByBits head rest).bits =
      rest.foldl (fun m dt => max m dt.bits) head.bits := by
  induction rest generalizing head with
  | nil => rfl
  | cons r t ih =>
    have step : maxByBits head (r :: t) =
        maxByBits (if head.bits < r.bits then r else head) t := rfl
    have hbits : (if head.bits < r.bits then r else head).bits =
        max head.bits r.bits := by
      by_cases hb : head.bits < r.bits
      · simp [hb, Nat.max_eq_right (Nat.le_of_lt hb)]
      · simp [hb, Nat.max_eq_left (Nat.le_of_not_lt hb)]
    rw [step, ih, hbits, List.foldl_cons]

theorem maxBits_cons (d : DType) (rest : List DType) :
    maxBits (d :: rest) = rest.foldl (fun m dt => max m dt.bits) d.bits := by
  simp [maxBits, List.foldl_cons]

theorem kindIsBoolInt_of_bool {dt : DType} (h : kindIsBool dt = true) :
    kindIsBoolInt dt = true := by
  obtain ⟨k, bits⟩ := dt
  cases k <;> simp_all [kindIsBool, kindIsBoolInt]

theorem kindIsReal_of_boolInt {dt : DType} (h : kindIsBoolInt dt = true) :
    kindIsReal dt = true := by
  obtain ⟨k, bits⟩ := dt
  cases k <;> simp_all [kindIsBoolInt, kindIsReal]

theorem kindIsNumeric_of_real {dt : DType} (h : kindIsReal dt = true) :
    kindIsNumeric dt = true := by
  obtain ⟨k, bits⟩ := dt
  cases k <;> simp_all [kindIsReal, kindIsNumeric]

theorem all_boolInt_of_all_bool {l : List DType}
    (h : l.all kindIsBool = true) : l.all kindIsBoolInt = true := by
  rw [List.all_eq_true] at h ⊢
  exact fun dt hdt => kindIsBoolInt_of_bool (h dt hdt)

theorem all_real_of_all_boolInt {l : List DType}
    (h : l.all kindIsBoolInt = true) : l.all kindIsReal = true := by
  rw [List.all_eq_true] at h ⊢
  exact fun dt hdt => kindIsReal_of_boolInt (h dt hdt)

theorem all_numeric_of_all_real {l : List DType}
    (h : l.all kindIsReal = true) : l.all kindIsNumeric = true := by
  rw [List.all_eq_true] at h ⊢
  exact fun dt hdt => kindIsNumeric_of_real (h dt hdt)

theorem all_eq_false_of_mem {l : List DType} {dt : DType} {f : DType → Bool}
    (hmem : dt ∈ l) (h : f dt = false) : l.all f = false := by
  cases hall : l.all f with
  | false => rfl
  | true =>
    rw [List.all_eq_true] at hall
    rw [hall dt hmem] at h
    cases h

theorem kindIsBoolInt_false_of_float {dt : DType} (h : dt.kind = Kind.float) :
    kindIsBoolInt dt = false := by
  simp [kindIsBoolInt, h]

theorem kindIsReal_false_of_complex {dt : DType} (h : dt.kind = Kind.complex) :
    kindIsReal dt = false := by
  simp [kindIsReal, h]

theorem kindIsReal_of_numeric_not_complex {dt : DType}
    (h : kindIsNumeric dt = true) (hc : dt.kind ≠ Kind.complex) :
    kindIsReal dt = true := by
  obtain ⟨k, bits⟩ := dt
  cases k with
  | bool => simp [kindIsReal]
  | int => simp [kindIsReal]
  | float => simp [kindIsReal]
  | complex => exact absurd rfl hc
  | custom t => simp [kindIsNumeric] at h

theorem kindIsBoolInt_of_real_not_float {dt : DType}
    (h : kindIsReal dt = true) (hf : dt.kind ≠ Kind.float) :
    kindIsBoolInt dt = true := by
  obtain ⟨k, bits⟩ := dt
  cases k with
  | bool => simp [kindIsBoolInt]
  | int => simp [kindIsBoolInt]
  | float => exact absurd rfl hf
  | complex => simp [kindIsReal] at h
  | custom t => simp [kindIsReal] at h

theorem combine_eval_bool (p : Nat) (d : DType) (rest : List DType)
    (h1 : (d :: rest).all kindIsBool = true) :
    combine_types p (d :: rest) = Except.ok d := by
  simp [combine_types, h1]

theorem combine_eval_boolint (p : Nat) (d : DType) (rest : List DType)
    (h1 : (d :: rest).all kindIsBool = false)
    (h2 : (d :: rest).all kindIsBoolInt = true) :
    combine_types p (d :: rest) = Except.ok (maxByBits d rest) := by
  simp [combine_types, h1, h2]

theorem combine_eval_real (p : Nat) {l : List DType}
    (h2 : l.all kindIsBoolInt = false)
    (h3 : l.all kindIsReal = true) :
    combine_types p l = Except.ok (float_type p) := by
  have h1 : l.all kindIsBool = false := by
    cases hb : l.all kindIsBool with
    | false => rfl
    | true => rw [all_boolInt_of_all_bool hb] at h2; cases h2
  simp [combine_types, h1, h2, h3]

theorem combine_eval_complex (p : Nat) {l : List DType}
    (h3 : l.all kindIsReal = false)
    (h4 : l.all kindIsNumeric = true) :
    combine_types p l = Except.ok (complex_type p) := by
  have h2 : l.all kindIsBoolInt = false := by
    cases hb : l.all kindIsBoolInt with
    | false => rfl
    | true => rw [all_real_of_all_boolInt hb] at h3; cases h3
  have h1 : l.all kindIsBool = false := by
    cases hb : l.all kindIsBool with
    | false => rfl
    | true => rw [all_boolInt_of_all_bool hb] at h2; cases h2
  simp [combine_types, h1, h2, h3, h4]

theorem combine_eval_mismatch (p : Nat) {l : List DType}
    (h4 : l.all kindIsNumeric = false) :
    combine_types p l = Except.error (CombineError.typeMismatch l) := by
  have h3 : l.all kindIsReal = false := by
    cases hb : l.all kindIsReal with
    | false => rfl
    | true => rw [all_numeric_of_all_real hb] at h4; cases h4
  have h2 : l.all kindIsBoolInt = false := by
    cases hb : l.all kindIsBoolInt with
    | false => rfl
    | true => rw [all_real_of_all_boolInt hb] at h3; cases h3
  have h1 : l.all kindIsBool = false := by
    cases hb : l.all kindIsBool with
    | false => rfl
    | true => rw [all_boolInt_of_all_bool hb] at h2; cases h2
  simp [combine_types, h1, h2, h3, h4]

theorem combine_float_result (p : Nat) {l : List DType}
    (hreal : l.all kindIsReal = true)
    (hf : ∃ dt ∈ l, dt.kind = Kind.float) :
    combine_types p l = Except.ok (float_type p) := by
  obtain ⟨dt, hmem, hk⟩ := hf
  exact combine_eval_real p
    (all_eq_false_of_mem hmem (kindIsBoolInt_false_of_float hk)) hreal

theorem combine_complex_result (p : Nat) {l : List DType}
    (hnum : l.all kindIsNumeric = true)
    (hc : ∃ dt ∈ l, dt.kind = Kind.complex) :
    combine_types p l = Except.ok (complex_type p) := by
  obtain ⟨dt, hmem, hk⟩ := hc
  exact combine_eval_complex p
    (all_eq_false_of_mem hmem (kindIsReal_false_of_complex hk)) hnum

theorem combine_boolint_mem (p : Nat) {l : List DType} (hne : l ≠ [])
    (hbi : l.all kindIsBoolInt = true) :
    ∃ d ∈ l, combine_types p l = Except.ok d := by
  cases l with
  | nil => exact absurd rfl hne
  | cons d rest =>
    cases hb : (d :: rest).all kindIsBool with
    | true => exact ⟨d, List.mem_cons_self d rest, combine_eval_bool p d rest hb⟩
    | false =>
      have heq := combine_eval_boolint p d rest hb hbi
      rcases maxByBits_mem rest d with h | h
      · exact ⟨d, List.mem_cons_self d rest, by rw [heq, h]⟩
      · exact ⟨maxByBits d rest, List.mem_cons_of_mem d h, heq⟩

theorem combine_ok_numeric (p : Nat) {l : List DType} (hne : l ≠ [])
    (hnum : l.all kindIsNumeric = true) :
    ∃ d, combine_types p l = Except.ok d ∧ kindIsNumeric d = true ∧
      (d.kind = Kind.complex → ∃ dt ∈ l, dt.kind = Kind.complex) ∧
      (d.kind = Kind.float → ∃ dt ∈ l, dt.kind = Kind.float ∨ dt.kind = Kind.complex) := by
  by_cases hc : ∃ dt ∈ l, dt.kind = Kind.complex
  · refine ⟨complex_type p, combine_complex_result p hnum hc, ?_, fun _ => hc, ?_⟩
    · simp [kindIsNumeric, complex_type]
    · intro hk
      simp [complex_type] at hk
  · have hnc : ∀ dt ∈ l, dt.kind ≠ Kind.complex := by
      intro dt hdt hk
      exact hc ⟨dt, hdt, hk⟩
    have hreal : l.all kindIsReal = true := by
      rw [List.all_eq_true] at hnum ⊢
      exact fun dt hdt =>
        kindIsReal_of_numeric_not_complex (hnum dt hdt) (hnc dt hdt)
    by_cases hf : ∃ dt ∈ l, dt.kind = Kind.float
    · obtain ⟨dt, hdt, hkf⟩ := hf
      refine ⟨float_type p, combine_float_result p hreal ⟨dt, hdt, hkf⟩, ?_, ?_, ?_⟩
      · simp [kindIsNumeric, float_type]
      · intro hk
        simp [float_type] at hk
      · exact fun _ => ⟨dt, hdt, Or.inl hkf⟩
    · have hnf : ∀ dt ∈ l, dt.kind ≠ Kind.float := by
        intro dt hdt hk
        exact hf ⟨dt, hdt, hk⟩
      have hbi : l.all kindIsBoolInt = true := by
        rw [List.all_eq_true] at hreal ⊢
        exact fun dt hdt =>
          kindIsBoolInt_of_real_not_float (hreal dt hdt) (hnf dt hdt)
      obtain ⟨d, hdmem, hdeq⟩ := combine_boolint_mem p hne hbi
      refine ⟨d, hdeq, ?_, ?_, ?_⟩
      · exact (List.all_eq_true.mp hnum) d hdmem
      · intro hk
        exact absurd hk (hnc d hdmem)
      · intro hk
        exact absurd hk (hnf d hdmem)

/-- Backend.__init__(self, name) stores the name; the name property reads it
back. Construction performs no further checks. -/
structure Backend where
  name : String
deriving DecidableEq, Repr

/-- Backend.__enter__: _DEFAULT.append(self). The process-wide stack
_DEFAULT (a Python list, defined in the backend package module) is passed
explicitly as state; list.append adds self at the end. -/
def Backend.enter (b : Backend) (stack : List Backend) : List Backend :=
  stack ++ [b]

/-- Backend.__exit__(self, exc_type, exc_val, exc_tb): _DEFAULT.pop(-1).
The exception arguments are ignored; pop(-1) removes the last element and
raises IndexError (modelled as none) on an empty list. -/
def Backend.exitScope (b : Backend) (excInfo : Option String)
    (stack : List Backend) : Option (List Backend) :=
  match b, excInfo, stack with
  | _, _, [] => none
  | _, _, s => some s.dropLast

/-- Python errors raised by abstract Backend operations:
NotImplementedError(*args), where each argument is recorded by its repr
(repr of a Backend is its name). -/
inductive BackendError where
  | notImplemented (args : List String)
deriving DecidableEq, Repr

/-- Backend.sum: raise NotImplementedError(self). -/
def Backend.sum (b : Backend) (value : α) : Except BackendError α :=
  Except.error (BackendError.notImplemented [b.name])

/-- Backend.conjugate_gradient in the abstract base class:
raise NotImplementedError(self). -/
def Backend.conjugate_gradient (b : Backend) (A y x0 : α)
    (relative_tolerance absolute_tolerance : ℚ) (max_iterations : ℕ)
    (gradient : String) : Except BackendError (Bool × α × ℕ) :=
  Except.error (BackendError.notImplemented [b.name])

/-- Backend.is_tensor: raise NotImplementedError() — no arguments at all. -/
def Backend.is_tensor (b : Backend) (x : α) (only_native : Bool) :
    Except BackendError Bool :=
  Except.error (BackendError.notImplemented [])

/-- The engine-specific pieces the default operator layer relies on: the
abstract methods dtype and cast, and the native Python operators
+, -, *, /, **, % on native tensors of type α. A concrete backend supplies
these; the base class supplies auto_cast and add/sub/mul/div/pow/mod. -/
structure BackendOps (α : Type) where
  dtype : α → DType
  cast : α → DType → α
  natAdd : α → α → α
  natSub : α → α → α
  natMul : α → α → α
  natDiv : α → α → α
  natPow : α → α → α
  natMod : α → α → α

/-- Backend.auto_cast(*tensors): compute the dtypes of all tensors, combine
them with combine_types, and cast every tensor to the combined type.
A combine_types error propagates. -/
def BackendOps.auto_cast (B : BackendOps α) (precision : Nat)
    (tensors : List α) : Except CombineError (List α) :=
  match combine_types precision (tensors.map B.dtype) with
  | Except.error e => Except.error e
  | Except.ok result_type =>
      Except.ok (tensors.map (fun t => B.cast t result_type))

/-- Backend.add: a, b = self.auto_cast(a, b); return a + b. -/
def BackendOps.add (B : BackendOps α) (precision : Nat) (a b : α) :
    Except CombineError α :=
  match B.auto_cast precision [a, b] with
  | Except.ok [x, y] => Except.ok (B.natAdd x y)
  | Except.ok _ => Except.error CombineError.indexError
  | Except.error e => Except.error e

/-- Backend.sub: a, b = self.auto_cast(a, b); return a - b. -/
def BackendOps.sub (B : BackendOps α) (precision : Nat) (a b : α) :
    Except CombineError α :=
  match B.auto_cast precision [a, b] with
  | Except.ok [x, y] => Except.ok (B.natSub x y)
  | Except.ok _ => Except.error CombineError.indexError
  | Except.error e => Except.error e

/-- Backend.mul: a, b = self.auto_cast(a, b); return a * b. -/
def BackendOps.mul (B : BackendOps α) (precision : Nat) (a b : α) :
    Except CombineError α :=
  match B.auto_cast precision [a, b] with
  | Except.ok [x, y] => Except.ok (B.natMul x y)
  | Except.ok _ => Except.error CombineError.indexError
  | Except.error e => Except.error e

/-- Backend.div: numerator, denominator = self.auto_cast(...);
return numerator / denominator. -/
def BackendOps.div (B : BackendOps α) (precision : Nat) (a b : α) :
    Except CombineError α :=
  match B.auto_cast precision [a, b] with
  | Except.ok [x, y] => Except.ok (B.natDiv x y)
  | Except.ok _ => Except.error CombineError.indexError
  | Except.error e => Except.error e

/-- Backend.pow: base, exp = self.auto_cast(...); return base ** exp. -/
def BackendOps.pow (B : BackendOps α) (precision : Nat) (a b : α) :
    Except CombineError α :=
  match B.auto_cast precision [a, b] with
  | Except.ok [x, y] => Except.ok (B.natPow x y)
  | Except.ok _ => Except.error CombineError.indexError
  | Except.error e => Except.error e

/-- Backend.mod: dividend, divisor = self.auto_cast(...);
return dividend % divisor. -/
def BackendOps.mod (B : BackendOps α) (precision : Nat) (a b : α) :
    Except CombineError α :=
  match B.auto_cast precision [a, b] with
  | Except.ok [x, y] => Except.ok (B.natMod x y)
  | Except.ok _ => Except.error CombineError.indexError
  | Except.error e => Except.error e

/-- Concrete engine used to instantiate the default operator layer on
dtype-tagged rational scalars. -/
def taggedOps : BackendOps (DType × ℤ) where
  dtype := Prod.fst
  cast := fun t dt => (dt, t.2)
  natAdd := fun x y => (x.1, x.2 + y.2)
  natSub := fun x y => (x.1, x.2 - y.2)
  natMul := fun x y => (x.1, x.2 * y.2)
  natDiv := fun x y => (x.1, x.2 / y.2)
  natPow := fun x y => (x.1, x.2 ^ y.2.toNat)
  natMod := fun x y => (x.1, x.2 % y.2)

/-- Dot product of rational vectors. -/
def dotQ (u v : List ℚ) : ℚ :=
  (List.zipWith (fun a b => a * b) u v).sum

/-- Elementwise sum of rational vectors. -/
def addV (u v : List ℚ) : List ℚ :=
  List.zipWith (fun a b => a + b) u v

/-- Elementwise difference of rational vectors. -/
def subV (u v : List ℚ) : List ℚ :=
  List.zipWith (fun a b => a - b) u v

/-- Scalar multiple of a rational vector. -/
def scaleV (c : ℚ) (u : List ℚ) : List ℚ :=
  u.map (fun a => c * a)

/-- Modelled from the spec: the iteration loop of the concrete
conjugate_gradient solver, which is not under src/ (the base class method
only raises NotImplementedError). Per the solve contract, the loop stops
with converged=true when the residual meets the tolerance and reports
converged=false once max_iterations is reached; with max_iterations = 0 it
returns (False, x0, 0) regardless of the system. Norm comparisons are done
on squared norms to stay in exact rational arithmetic. -/
def cgLoop (A : List ℚ → List ℚ) (threshSq : ℚ) :
    ℕ → List ℚ → List ℚ → List ℚ → ℕ → Bool × List ℚ × ℕ
  | 0, x, _r, _p, iterations => (false, x, iterations)
  | Nat.succ fuel, x, r, p, iterations =>
      if dotQ r r ≤ threshSq then (true, x, iterations)
      else
        let Ap := A p
        let alpha := dotQ r r / dotQ p Ap
        let x' := addV x (scaleV alpha p)
        let r' := subV r (scaleV alpha Ap)
        let beta := dotQ r' r' / dotQ r r
        let p' := addV r' (scaleV beta p)
        cgLoop A threshSq fuel x' r' p' (iterations + 1)

/-- Modelled from the spec: conjugate_gradient(A, y, x0, relative_tolerance,
absolute_tolerance, max_iterations) -> (converged, solution, iterations).
A is a callable linear operator; the stopping threshold is
max(relative_tolerance * norm(y), absolute_tolerance), compared in squared
form. -/
def conjugate_gradient (A : List ℚ → List ℚ) (y x0 : List ℚ)
    (relative_tolerance absolute_tolerance : ℚ) (max_iterations : ℕ) :
    Bool × List ℚ × ℕ :=
  let r0 := subV y (A x0)
  let threshSq := max (relative_tolerance * relative_tolerance * dotQ y y)
    (absolute_tolerance * absolute_tolerance)
  cgLoop A threshSq max_iterations x0 r0 r0 0

theorem kindIsBool_false_of_int {dt : DType} (h : dt.kind = Kind.int) :
    kindIsBool dt = false := by
  simp [kindIsBool, h]

theorem exitScope_concat (b c : Backend) (excInfo : Option String)
    (s : List Backend) : Backend.exitScope b excInfo (s ++ [c]) = some s := by
  cases hs : s ++ [c] with
  | nil => simp at hs
  | cons d t =>
    have hred : Backend.exitScope b excInfo (d :: t) =
        some (d :: t).dropLast := rfl
    rw [hred, ← hs]
    simp

/-- Claim C2: Backend.__enter__ pushes exactly self on top of the
process-wide stack, and Backend.__exit__ — whatever the exception
arguments — pops exactly one entry, so an enter followed by an exit leaves
the stack with its pre-entry depth and contents. -/
theorem scope_enter_exit (b : Backend) (stack : List Backend)
    (excInfo : Option String) :
    Backend.enter b stack = stack ++ [b] ∧
    (Backend.enter b stack).getLast? = some b ∧
    Backend.exitScope b excInfo (Backend.enter b stack) = some stack ∧
    (∀ (s : List Backend) (c : Backend),
      Backend.exitScope b excInfo (s ++ [c]) = some s) :=
  ⟨rfl, List.getLast?_concat stack,
    exitScope_concat b b excInfo stack,
    fun s c => exitScope_concat b c excInfo s⟩

/-- Claim C4: when all operand kinds are in bool/int/float and at least one
is float, combine_types returns the canonical float type
DType(float, precision), whatever the float operand widths. -/
theorem combine_types_float_canonical (precision : Nat)
    (dtypes : List DType)
    (hreal : dtypes.all kindIsReal = true)
    (hf : ∃ dt ∈ dtypes, dt.kind = Kind.float) :
    combine_types precision dtypes = Except.ok (float_type precision) ∧
    float_type precision = DType.mk Kind.float precision :=
  ⟨combine_float_result precision hreal hf, rfl⟩

/-- Witness for C4: two 64-bit floats combine to the 32-bit canonical float
under the default precision 32. -/
theorem combine_types_float_canonical_witness :
    ([DType.mk Kind.float 64, DType.mk Kind.float 64].all kindIsReal = true) ∧
    (∃ dt ∈ [DType.mk Kind.float 64, DType.mk Kind.float 64],
      dt.kind = Kind.float) ∧
    (combine_types 32 [DType.mk Kind.float 64, DType.mk Kind.float 64] =
      Except.ok (float_type 32) ∧
      float_type 32 = DType.mk Kind.float 32) :=
  ⟨by decide, by decide,
    combine_types_float_canonical 32
      [DType.mk Kind.float 64, DType.mk Kind.float 64] (by decide) (by decide)⟩

/-- Claim C5: when all operand kinds are in bool/int/float/complex and at
least one is complex, combine_types returns the canonical complex type,
whose kind is complex and whose bit width is max(64, precision). -/
theorem combine_types_complex_canonical (precision : Nat)
    (dtypes : List DType)
    (hnum : dtypes.all kindIsNumeric = true)
    (hc : ∃ dt ∈ dtypes, dt.kind = Kind.complex) :
    combine_types precision dtypes = Except.ok (complex_type precision) ∧
    (complex_type precision).kind = Kind.complex ∧
    (complex_type precision).bits = max 64 precision :=
  ⟨combine_complex_result precision hnum hc, rfl, rfl⟩

/-- Witness for C5: a 64-bit complex and an 8-bit int combine to the
canonical complex type of width max(64, 32) = 64. -/
theorem combine_types_complex_canonical_witness :
    ([DType.mk Kind.complex 64, DType.mk Kind.int 8].all kindIsNumeric
      = true) ∧
    (∃ dt ∈ [DType.mk Kind.complex 64, DType.mk Kind.int 8],
      dt.kind = Kind.complex) ∧
    (combine_types 32 [DType.mk Kind.complex 64, DType.mk Kind.int 8] =
      Except.ok (complex_type 32) ∧
      (complex_type 32).kind = Kind.complex ∧
      (complex_type 32).bits = max 64 32) :=
  ⟨by decide, by decide,
    combine_types_complex_canonical 32
      [DType.mk Kind.complex 64, DType.mk Kind.int 8] (by decide) (by decide)⟩

/-- Claim C6: a non-empty dtype list containing a kind outside
bool/int/float/complex makes combine_types fail with the TypeMismatch
error (ValueError(dtypes)); no DType is returned. -/
theorem combine_types_type_mismatch (precision : Nat) (dtypes : List DType)
    (hne : dtypes ≠ [])
    (hbad : ∃ dt ∈ dtypes, kindIsNumeric dt = false) :
    combine_types precision dtypes =
      Except.error (CombineError.typeMismatch dtypes) := by
  obtain ⟨dt, hmem, h⟩ := hbad
  exact combine_eval_mismatch precision (all_eq_false_of_mem hmem h)

/-- Witness for C6: a custom object kind has no promotion rule. -/
theorem combine_types_type_mismatch_witness :
    ([DType.mk (Kind.custom "object") 64] ≠ ([] : List DType)) ∧
    (∃ dt ∈ [DType.mk (Kind.custom "object") 64],
      kindIsNumeric dt = false) ∧
    combine_types 32 [DType.mk (Kind.custom "object") 64] =
      Except.error
        (CombineError.typeMismatch [DType.mk (Kind.custom "object") 64]) :=
  ⟨by decide, by decide,
    combine_types_type_mismatch 32 [DType.mk (Kind.custom "object") 64]
      (by decide) (by decide)⟩

/-- Claim C9: with max_iterations = 0 the modelled conjugate_gradient
returns converged = false, solution = x0 and iterations = 0, for every
operator, target and initial guess, without failing. -/
theorem conjugate_gradient_zero_iterations (A : List ℚ → List ℚ)
    (y x0 : List ℚ) (relative_tolerance absolute_tolerance : ℚ) :
    conjugate_gradient A y x0 relative_tolerance absolute_tolerance 0 =
      (false, x0, 0) :=
  rfl

/-- Claim C10: combine_types on the empty argument list takes the vacuous
all-bool branch and fails on dtypes[0] with IndexError, and auto_cast on
zero tensors propagates the same failure. -/
theorem combine_types_empty_fails (precision : Nat) {α : Type}
    (B : BackendOps α) :
    combine_types precision [] = Except.error CombineError.indexError ∧
    B.auto_cast precision [] = Except.error CombineError.indexError :=
  ⟨rfl, rfl⟩

/-- Claim C3 counterexample: combining an 8-bit bool with an 8-bit int
(both kinds in bool/int, an int present) yields the bool dtype, because
Python max keeps the first of two equally wide operands — the result kind
is not int as claimed. -/
theorem combine_types_widest_int_counterexample :
    combine_types 32 [DType.mk Kind.bool 8, DType.mk Kind.int 8] =
      Except.ok (DType.mk Kind.bool 8) ∧
    (DType.mk Kind.bool 8).kind ≠ Kind.int := by
  constructor
  · decide
  · decide

/-- Claim C3 (amended): for bool/int operand lists with at least one int,
combine_types returns an operand of maximal bit width; when every operand
attaining the maximal width has kind int, that result has kind int and
bit width equal to the maximum over the list. -/
theorem combine_types_widest_int (precision : Nat) (dtypes : List DType)
    (hbi : dtypes.all kindIsBoolInt = true)
    (hint : ∃ dt ∈ dtypes, dt.kind = Kind.int)
    (hmax : ∀ dt ∈ dtypes, dt.bits = maxBits dtypes → dt.kind = Kind.int) :
    ∃ d ∈ dtypes, combine_types precision dtypes = Except.ok d ∧
      d.kind = Kind.int ∧ d.bits = maxBits dtypes := by
  obtain ⟨di, hdi, hki⟩ := hint
  cases dtypes with
  | nil => cases hdi
  | cons d rest =>
    have h1 : (d :: rest).all kindIsBool = false :=
      all_eq_false_of_mem hdi (kindIsBool_false_of_int hki)
    have heq := combine_eval_boolint precision d rest h1 hbi
    have hmem : maxByBits d rest ∈ d :: rest := by
      rcases maxByBits_mem rest d with h | h
      · rw [h]; exact List.mem_cons_self d rest
      · exact List.mem_cons_of_mem d h
    have hbits : (maxByBits d rest).bits = maxBits (d :: rest) := by
      rw [maxByBits_bits, maxBits_cons]
    exact ⟨maxByBits d rest, hmem, heq,
      hmax (maxByBits d rest) hmem hbits, hbits⟩

/-- Witness for C3 (amended): a 16-bit int with an 8-bit bool gives the
16-bit int. -/
theorem combine_types_widest_int_witness :
    ([DType.mk Kind.int 16, DType.mk Kind.bool 8].all kindIsBoolInt
      = true) ∧
    (∃ dt ∈ [DType.mk Kind.int 16, DType.mk Kind.bool 8],
      dt.kind = Kind.int) ∧
    (∀ dt ∈ [DType.mk Kind.int 16, DType.mk Kind.bool 8],
      dt.bits = maxBits [DType.mk Kind.int 16, DType.mk Kind.bool 8] →
        dt.kind = Kind.int) ∧
    (∃ d ∈ [DType.mk Kind.int 16, DType.mk Kind.bool 8],
      combine_types 32 [DType.mk Kind.int 16, DType.mk Kind.bool 8] =
        Except.ok d ∧ d.kind = Kind.int ∧
        d.bits = maxBits [DType.mk Kind.int 16, DType.mk Kind.bool 8]) :=
  ⟨by decide, by decide, by decide,
    combine_types_widest_int 32 [DType.mk Kind.int 16, DType.mk Kind.bool 8]
      (by decide) (by decide) (by decide)⟩

/-- Claim C8 counterexample: Backend.sum on a backend that does not
implement it raises NotImplementedError(self), whose payload is exactly
the backend name — the operation name "sum" is not part of the error. -/
theorem notimplemented_payload_counterexample :
    (Backend.mk "numpy").sum (0 : ℤ) =
      Except.error (BackendError.notImplemented ["numpy"]) ∧
    "sum" ∉ (["numpy"] : List String) := by
  constructor
  · rfl
  · simp

/-- Claim C8 (amended): constructing a Backend always succeeds (the
constructor only stores the name), and invoking an unimplemented abstract
operation fails at call time with NotImplementedError; operations such as
sum and conjugate_gradient raise NotImplementedError(self), carrying the
backend name but not the operation name, while operations such as
is_tensor raise NotImplementedError() with no payload at all. -/
theorem notimplemented_call_time (n : String) (x : ℤ)
    (relative_tolerance absolute_tolerance : ℚ) (max_iterations : ℕ)
    (gradient : String) :
    (Backend.mk n).name = n ∧
    (Backend.mk n).sum x =
      Except.error (BackendError.notImplemented [n]) ∧
    (Backend.mk n).conjugate_gradient x x x relative_tolerance
        absolute_tolerance max_iterations gradient =
      Except.error (BackendError.notImplemented [n]) ∧
    (Backend.mk n).is_tensor x false =
      Except.error (BackendError.notImplemented []) :=
  ⟨rfl, rfl, rfl, rfl⟩

/-- Claim C7: every default elementwise binary operator first auto-casts
its operands: whenever combine_types succeeds on the two operand dtypes,
add/sub/mul/div/pow/mod each apply their native operator to the operands
cast to that single combined dtype. -/
theorem default_binary_ops_auto_cast {α : Type} (B : BackendOps α)
    (precision : Nat) (a b : α) (rt : DType)
    (h : combine_types precision [B.dtype a, B.dtype b] = Except.ok rt) :
    B.add precision a b =
      Except.ok (B.natAdd (B.cast a rt) (B.cast b rt)) ∧
    B.sub precision a b =
      Except.ok (B.natSub (B.cast a rt) (B.cast b rt)) ∧
    B.mul precision a b =
      Except.ok (B.natMul (B.cast a rt) (B.cast b rt)) ∧
    B.div precision a b =
      Except.ok (B.natDiv (B.cast a rt) (B.cast b rt)) ∧
    B.pow precision a b =
      Except.ok (B.natPow (B.cast a rt) (B.cast b rt)) ∧
    B.mod precision a b =
      Except.ok (B.natMod (B.cast a rt) (B.cast b rt)) := by
  have hcast : B.auto_cast precision [a, b] =
      Except.ok [B.cast a rt, B.cast b rt] := by
    simp [BackendOps.auto_cast, h]
  refine ⟨?_, ?_, ?_, ?_, ?_, ?_⟩ <;>
    simp [BackendOps.add, BackendOps.sub, BackendOps.mul, BackendOps.div,
      BackendOps.pow, BackendOps.mod, hcast]

/-- Witness for C7: an int8 and an int32 tagged scalar auto-cast to int32
before every default binary operator applies its native operation. -/
theorem default_binary_ops_auto_cast_witness :
    (combine_types 32
      [taggedOps.dtype (DType.mk Kind.int 8, (5 : ℤ)),
        taggedOps.dtype (DType.mk Kind.int 32, (7 : ℤ))] =
      Except.ok (DType.mk Kind.int 32)) ∧
    taggedOps.add 32 (DType.mk Kind.int 8, (5 : ℤ))
        (DType.mk Kind.int 32, (7 : ℤ)) =
      Except.ok (taggedOps.natAdd
        (taggedOps.cast (DType.mk Kind.int 8, (5 : ℤ)) (DType.mk Kind.int 32))
        (taggedOps.cast (DType.mk Kind.int 32, (7 : ℤ))
          (DType.mk Kind.int 32))) ∧
    taggedOps.sub 32 (DType.mk Kind.int 8, (5 : ℤ))
        (DType.mk Kind.int 32, (7 : ℤ)) =
      Except.ok (taggedOps.natSub
        (taggedOps.cast (DType.mk Kind.int 8, (5 : ℤ)) (DType.mk Kind.int 32))
        (taggedOps.cast (DType.mk Kind.int 32, (7 : ℤ))
          (DType.mk Kind.int 32))) ∧
    taggedOps.mul 32 (DType.mk Kind.int 8, (5 : ℤ))
        (DType.mk Kind.int 32, (7 : ℤ)) =
      Except.ok (taggedOps.natMul
        (taggedOps.cast (DType.mk Kind.int 8, (5 : ℤ)) (DType.mk Kind.int 32))
        (taggedOps.cast (DType.mk Kind.int 32, (7 : ℤ))
          (DType.mk Kind.int 32))) ∧
    taggedOps.div 32 (DType.mk Kind.int 8, (5 : ℤ))
        (DType.mk Kind.int 32, (7 : ℤ)) =
      Except.ok (taggedOps.natDiv
        (taggedOps.cast (DType.mk Kind.int 8, (5 : ℤ)) (DType.mk Kind.int 32))
        (taggedOps.cast (DType.mk Kind.int 32, (7 : ℤ))
          (DType.mk Kind.int 32))) ∧
    taggedOps.pow 32 (DType.mk Kind.int 8, (5 : ℤ))
        (DType.mk Kind.int 32, (7 : ℤ)) =
      Except.ok (taggedOps.natPow
        (taggedOps.cast (DType.mk Kind.int 8, (5 : ℤ)) (DType.mk Kind.int 32))
        (taggedOps.cast (DType.mk Kind.int 32, (7 : ℤ))
          (DType.mk Kind.int 32))) ∧
    taggedOps.mod 32 (DType.mk Kind.int 8, (5 : ℤ))
        (DType.mk Kind.int 32, (7 : ℤ)) =
      Except.ok (taggedOps.natMod
        (taggedOps.cast (DType.mk Kind.int 8, (5 : ℤ)) (DType.mk Kind.int 32))
        (taggedOps.cast (DType.mk Kind.int 32, (7 : ℤ))
          (DType.mk Kind.int 32))) :=
  ⟨by decide,
    default_binary_ops_auto_cast taggedOps 32
      (DType.mk Kind.int 8, (5 : ℤ)) (DType.mk Kind.int 32, (7 : ℤ))
      (DType.mk Kind.int 32) (by decide)⟩

theorem forall₂_exists_right {α β : Type} {R : α → β → Prop}
    {as : List α} {bs : List β} (h : List.Forall₂ R as bs) :
    ∀ a ∈ as, ∃ b ∈ bs, R a b := by
  induction h with
  | nil => intro a ha; cases ha
  | cons hab htail ih =>
    intro x hx
    rcases List.mem_cons.mp hx with hx | hx
    · subst hx
      exact ⟨_, List.mem_cons_self _ _, hab⟩
    · obtain ⟨b, hb, hr⟩ := ih x hx
      exact ⟨b, List.mem_cons_of_mem _ hb, hr⟩

theorem forall₂_exists_left {α β : Type} {R : α → β → Prop}
    {as : List α} {bs : List β} (h : List.Forall₂ R as bs) :
    ∀ b ∈ bs, ∃ a ∈ as, R a b := by
  induction h with
  | nil => intro b hb; cases hb
  | cons hab htail ih =>
    intro y hy
    rcases List.mem_cons.mp hy with hy | hy
    · subst hy
      exact ⟨_, List.mem_cons_self _ _, hab⟩
    · obtain ⟨a, ha, hr⟩ := ih y hy
      exact ⟨a, List.mem_cons_of_mem _ ha, hr⟩

theorem part_subset {parts : List (List DType)} {l : List DType}
    (hjoin : parts.join = l) {pt : List DType} (hpt : pt ∈ parts) :
    ∀ x ∈ pt, x ∈ l := by
  intro x hx
  rw [← hjoin]
  exact List.mem_join.mpr ⟨pt, hpt, hx⟩

theorem combine_ok_ne_nil {precision : Nat} {pt : List DType} {r : DType}
    (h : combine_types precision pt = Except.ok r) : pt ≠ [] := by
  intro hnil
  subst hnil
  simp [combine_types] at h

/-- Claim C1 counterexample: combine_types is not commutative: an 8-bit
bool and an 8-bit int combine to the bool dtype in one order and to the
int dtype in the other, because the all-bool branch returns dtypes[0] and
the Python max breaks bit-width ties in favour of the first operand. -/
theorem combine_types_not_commutative :
    List.Perm [DType.mk Kind.bool 8, DType.mk Kind.int 8]
      [DType.mk Kind.int 8, DType.mk Kind.bool 8] ∧
    combine_types 32 [DType.mk Kind.bool 8, DType.mk Kind.int 8] ≠
      combine_types 32 [DType.mk Kind.int 8, DType.mk Kind.bool 8] := by
  constructor
  · exact List.Perm.swap (DType.mk Kind.int 8) (DType.mk Kind.bool 8) []
  · decide

/-- Claim C1 (amended): over dtype lists with kinds in
bool/int/float/complex that contain at least one float or complex operand,
combine_types is invariant under permutations, and combining any grouping
of the list into sublists first and then recombining the sublist results
gives the same dtype; over pure bool/int lists the result can depend on
the order (the first operand of maximal bit width wins). -/
theorem combine_types_perm_grouping (precision : Nat)
    (l m : List DType) (parts : List (List DType)) (results : List DType)
    (hnum : l.all kindIsNumeric = true)
    (hfc : ∃ dt ∈ l, dt.kind = Kind.float ∨ dt.kind = Kind.complex)
    (hperm : l.Perm m)
    (hjoin : parts.join = l)
    (hparts : List.Forall₂
      (fun pt r => combine_types precision pt = Except.ok r)
      parts results) :
    combine_types precision m = combine_types precision l ∧
    combine_types precision results = combine_types precision l := by
  have hnum_m : m.all kindIsNumeric = true := by
    rw [List.all_eq_true] at hnum ⊢
    exact fun dt hdt => hnum dt (hperm.mem_iff.mpr hdt)
  have hsub : ∀ pt ∈ parts, ∀ x ∈ pt, x ∈ l :=
    fun pt hpt => part_subset hjoin hpt
  have hresult : ∀ r ∈ results, ∃ pt ∈ parts,
      combine_types precision pt = Except.ok r :=
    forall₂_exists_left hparts
  have hpart_num : ∀ pt ∈ parts, pt.all kindIsNumeric = true := by
    intro pt hpt
    rw [List.all_eq_true]
    exact fun x hx => (List.all_eq_true.mp hnum) x (hsub pt hpt x hx)
  by_cases hc : ∃ dt ∈ l, dt.kind = Kind.complex
  · have hl : combine_types precision l =
        Except.ok (complex_type precision) :=
      combine_complex_result precision hnum hc
    have hc_m : ∃ dt ∈ m, dt.kind = Kind.complex := by
      obtain ⟨dt, hdt, hk⟩ := hc
      exact ⟨dt, hperm.mem_iff.mp hdt, hk⟩
    have hm : combine_types precision m =
        Except.ok (complex_type precision) :=
      combine_complex_result precision hnum_m hc_m
    have hnum_r : results.all kindIsNumeric = true := by
      rw [List.all_eq_true]
      intro r hr
      obtain ⟨pt, hpt, hcomb⟩ := hresult r hr
      obtain ⟨d, hdeq, hdnum, _hdc, _hdf⟩ :=
        combine_ok_numeric precision (combine_ok_ne_nil hcomb)
          (hpart_num pt hpt)
      rw [hdeq] at hcomb
      have hdr : d = r := Except.ok.inj hcomb
      rw [← hdr]
      exact hdnum
    have hc_r : ∃ r ∈ results, r.kind = Kind.complex := by
      obtain ⟨dt, hdt, hk⟩ := hc
      rw [← hjoin] at hdt
      obtain ⟨pt, hpt, hdtpt⟩ := List.mem_join.mp hdt
      obtain ⟨r, hr, hcomb⟩ := forall₂_exists_right hparts pt hpt
      have hcombc : combine_types precision pt =
          Except.ok (complex_type precision) :=
        combine_complex_result precision (hpart_num pt hpt) ⟨dt, hdtpt, hk⟩
      rw [hcombc] at hcomb
      have hrc : complex_type precision = r := Except.ok.inj hcomb
      exact ⟨r, hr, by rw [← hrc]; rfl⟩
    have hr_comb : combine_types precision results =
        Except.ok (complex_type precision) :=
      combine_complex_result precision hnum_r hc_r
    exact ⟨hm.trans hl.symm, hr_comb.trans hl.symm⟩
  · have hf : ∃ dt ∈ l, dt.kind = Kind.float := by
      obtain ⟨dt, hdt, hk | hk⟩ := hfc
      · exact ⟨dt, hdt, hk⟩
      · exact absurd ⟨dt, hdt, hk⟩ hc
    have hnc : ∀ dt ∈ l, dt.kind ≠ Kind.complex :=
      fun dt hdt hk => hc ⟨dt, hdt, hk⟩
    have hreal : l.all kindIsReal = true := by
      rw [List.all_eq_true] at hnum ⊢
      exact fun dt hdt =>
        kindIsReal_of_numeric_not_complex (hnum dt hdt) (hnc dt hdt)
    have hl : combine_types precision l = Except.ok (float_type precision) :=
      combine_float_result precision hreal hf
    have hf_m : ∃ dt ∈ m, dt.kind = Kind.float := by
      obtain ⟨dt, hdt, hk⟩ := hf
      exact ⟨dt, hperm.mem_iff.mp hdt, hk⟩
    have hreal_m : m.all kindIsReal = true := by
      rw [List.all_eq_true] at hnum_m ⊢
      exact fun dt hdt =>
        kindIsReal_of_numeric_not_complex (hnum_m dt hdt)
          (hnc dt (hperm.mem_iff.mpr hdt))
    have hreal_r : results.all kindIsReal = true := by
      rw [List.all_eq_true]
      intro r hr
      obtain ⟨pt, hpt, hcomb⟩ := hresult r hr
      obtain ⟨d, hdeq, hdnum, hdc, _hdf⟩ :=
        combine_ok_numeric precision (combine_ok_ne_nil hcomb)
          (hpart_num pt hpt)
      rw [hdeq] at hcomb
      have hdr : d = r := Except.ok.inj hcomb
      rw [← hdr]
      refine kindIsReal_of_numeric_not_complex hdnum ?_
      intro hk
      obtain ⟨dt, hdtpt, hdtk⟩ := hdc hk
      exact hnc dt (hsub pt hpt dt hdtpt) hdtk
    have hf_r : ∃ r ∈ results, r.kind = Kind.float := by
      obtain ⟨dt, hdt, hk⟩ := hf
      rw [← hjoin] at hdt
      obtain ⟨pt, hpt, hdtpt⟩ := List.mem_join.mp hdt
      obtain ⟨r, hr, hcomb⟩ := forall₂_exists_right hparts pt hpt
      have hpt_real : pt.all kindIsReal = true := by
        rw [List.all_eq_true]
        intro x hx
        have hxl := hsub pt hpt x hx
        exact kindIsReal_of_numeric_not_complex
          ((List.all_eq_true.mp hnum) x hxl) (hnc x hxl)
      have hcombf : combine_types precision pt =
          Except.ok (float_type precision) :=
        combine_float_result precision hpt_real ⟨dt, hdtpt, hk⟩
      rw [hcombf] at hcomb
      have hrf : float_type precision = r := Except.ok.inj hcomb
      exact ⟨r, hr, by rw [← hrf]; rfl⟩
    exact ⟨(combine_float_result precision hreal_m hf_m).trans hl.symm,
      (combine_float_result precision hreal_r hf_r).trans hl.symm⟩

/-- Witness for C1 (amended): a 64-bit float with an 8-bit int, its swap,
and the grouping into two singleton sublists all combine to the canonical
32-bit float. -/
theorem combine_types_perm_grouping_witness :
    ([DType.mk Kind.float 64, DType.mk Kind.int 8].all kindIsNumeric
      = true) ∧
    (∃ dt ∈ [DType.mk Kind.float 64, DType.mk Kind.int 8],
      dt.kind = Kind.float ∨ dt.kind = Kind.complex) ∧
    List.Perm [DType.mk Kind.float 64, DType.mk Kind.int 8]
      [DType.mk Kind.int 8, DType.mk Kind.float 64] ∧
    ([[DType.mk Kind.float 64], [DType.mk Kind.int 8]] :
      List (List DType)).join =
      [DType.mk Kind.float 64, DType.mk Kind.int 8] ∧
    List.Forall₂ (fun pt r => combine_types 32 pt = Except.ok r)
      [[DType.mk Kind.float 64], [DType.mk Kind.int 8]]
      [DType.mk Kind.float 32, DType.mk Kind.int 8] ∧
    (combine_types 32 [DType.mk Kind.int 8, DType.mk Kind.float 64] =
      combine_types 32 [DType.mk Kind.float 64, DType.mk Kind.int 8] ∧
    combine_types 32 [DType.mk Kind.float 32, DType.mk Kind.int 8] =
      combine_types 32 [DType.mk Kind.float 64, DType.mk Kind.int 8]) := by
  have hperm : List.Perm [DType.mk Kind.float 64, DType.mk Kind.int 8]
      [DType.mk Kind.int 8, DType.mk Kind.float 64] :=
    List.Perm.swap (DType.mk Kind.int 8) (DType.mk Kind.float 64) []
  have hfa : List.Forall₂ (fun pt r => combine_types 32 pt = Except.ok r)
      [[DType.mk Kind.float 64], [DType.mk Kind.int 8]]
      [DType.mk Kind.float 32, DType.mk Kind.int 8] :=
    List.Forall₂.cons (by decide)
      (List.Forall₂.cons (by decide) List.Forall₂.nil)
  exact ⟨by decide, by decide, hperm, rfl, hfa,
    combine_types_perm_grouping 32
      [DType.mk Kind.float 64, DType.mk Kind.int 8]
      [DType.mk Kind.int 8, DType.mk Kind.float 64]
      [[DType.mk Kind.float 64], [DType.mk Kind.int 8]]
      [DType.mk Kind.float 32, DType.mk Kind.int 8]
      (by decide) (by decide) hperm rfl hfa⟩
